import Mathlib

/-!
Shallow embedding of the real-time streaming transcription session engine of
the Catharsis-SEVA-Arogya repository, covering:
* `aws_services/audio_buffer.py` (`AudioBuffer`),
* `aws_services/session_manager.py` (`Session`, `SessionManager`),
* `aws_services/transcribe_streaming_manager.py` (`send_audio_chunk`, `end_stream`),
* `socketio_handlers.py` (`handle_audio_chunk`, `handle_session_end`,
  `result_callback`, the idle-sweep background task).

Machine state (the in-memory session registry, the active-stream table, the
database rows touched by the handlers, and the object store) is threaded
explicitly.  Byte strings are `List Nat`; wall clock time is a `Nat` of
seconds; the external MP3 encoder is abstracted to the concatenation of the
buffered PCM fragments (the only part of `finalize_to_mp3` visible to the
properties studied here).
-/

namespace Seva

abbrev Bytes := List Nat

/-! ### Association-list helpers (Python `dict` operations) -/

def lookupKey {α : Type} (l : List (String × α)) (k : String) : Option α :=
  match l with
  | [] => none
  | p :: rest => if p.1 = k then some p.2 else lookupKey rest k

def updateKey {α : Type} (l : List (String × α)) (k : String) (f : α → α) :
    List (String × α) :=
  l.map (fun p => if p.1 = k then (p.1, f p.2) else p)

def eraseKey {α : Type} (l : List (String × α)) (k : String) : List (String × α) :=
  l.filter (fun p => decide (p.1 ≠ k))

def memStr (x : String) (l : List String) : Bool :=
  match l with
  | [] => false
  | y :: rest => if y = x then true else memStr x rest

/-! ### AudioBuffer (`aws_services/audio_buffer.py`) -/

/-- The `RuntimeError`s raised by `AudioBuffer`: buffer overflow on `append`,
empty buffer on `finalize_to_mp3`, and the re-raised encoder failure
(`Audio conversion failed`) of `finalize_to_mp3`. -/
inductive BufferError
  | overflow
  | emptyBuffer
  | conversionFailed
deriving DecidableEq

structure AudioBuffer where
  chunks : List Bytes
  sample_rate : Nat
  max_duration_seconds : Nat
  max_size_bytes : Nat
  total_bytes : Nat
deriving DecidableEq

/-- `AudioBuffer._calculate_max_size`: duration * sample_rate * 2 bytes/sample. -/
def calculate_max_size (duration_seconds sample_rate : Nat) : Nat :=
  duration_seconds * sample_rate * 2

/-- `AudioBuffer.__init__` -/
def AudioBuffer.init (sample_rate : Nat) (max_duration_seconds : Nat) : AudioBuffer :=
  { chunks := []
    sample_rate := sample_rate
    max_duration_seconds := max_duration_seconds
    max_size_bytes := calculate_max_size max_duration_seconds sample_rate
    total_bytes := 0 }

/-- `AudioBuffer.append`: raises (returning the buffer untouched, as the source
raises before any mutation) when the post-append size would exceed the cap. -/
def AudioBuffer.append (b : AudioBuffer) (chunk : Bytes) :
    AudioBuffer × Option BufferError :=
  if b.max_size_bytes < b.total_bytes + chunk.length then (b, some .overflow)
  else
    ({ b with chunks := b.chunks ++ [chunk], total_bytes := b.total_bytes + chunk.length },
      none)

/-- `AudioBuffer.get_total_duration`: `total_bytes / 2 / sample_rate` seconds. -/
def AudioBuffer.get_total_duration (b : AudioBuffer) : ℚ :=
  if b.total_bytes = 0 then 0
  else ((b.total_bytes : ℚ) / 2) / (b.sample_rate : ℚ)

def concatBytes (l : List Bytes) : Bytes :=
  l.foldr (fun a b => a ++ b) []

/-- `AudioBuffer.finalize_to_mp3`: raises on an empty buffer, otherwise joins
the chunks in append order and hands them to the encoder (abstracted to the
joined PCM data).  The source keeps no finalized flag and never mutates the
buffer here.  This abstraction treats the encoding itself as always
succeeding, collapsing the conversion-failure re-raise of audio_buffer.py
lines 165-167; `finalize_to_mp3_full` below refines it with the encoder's
deterministic input check. -/
def AudioBuffer.finalize_to_mp3 (b : AudioBuffer) : Except BufferError Bytes :=
  if b.chunks = [] then .error .emptyBuffer
  else .ok (concatBytes b.chunks)

/-- `AudioBuffer.finalize_to_mp3` with the conversion-failure raise site of
audio_buffer.py lines 165-167 modelled: `AudioSegment` built with
`sample_width=2, channels=1` deterministically rejects raw data whose byte
length is not a multiple of 2 (the frame size), and the `except` block
re-raises that as the `Audio conversion failed` `RuntimeError`.  The encoder
output itself stays abstracted to the joined PCM.  No finalized flag exists
and the buffer is never mutated, so the outcome is a pure function of the
buffered data. -/
def AudioBuffer.finalize_to_mp3_full (b : AudioBuffer) : Except BufferError Bytes :=
  if b.chunks = [] then .error .emptyBuffer
  else
    let pcm_data := concatBytes b.chunks
    if pcm_data.length % 2 = 0 then .ok pcm_data
    else .error .conversionFailed

/-- Sequence of `append` calls, stopping at the first failure. -/
def AudioBuffer.appendAll (b : AudioBuffer) (cs : List Bytes) :
    AudioBuffer × Option BufferError :=
  match cs with
  | [] => (b, none)
  | c :: rest =>
    match b.append c with
    | (b2, none) => b2.appendAll rest
    | (b2, some e) => (b2, some e)

def sumBytes (cs : List Bytes) : Nat := (cs.map List.length).sum

/-! ### Session and SessionManager (`aws_services/session_manager.py`) -/

structure Session where
  session_id : String
  user_id : String
  request_sid : String
  quality : String
  sample_rate : Nat
  created_at : Nat
  last_activity : Nat
  last_chunk_id : Int
  audio_buffer : Option AudioBuffer
  persisted_final_segments : List String
deriving DecidableEq

/-- `Session.get_idle_seconds` against an explicit clock. -/
def Session.get_idle_seconds (s : Session) (now : Nat) : Nat :=
  now - s.last_activity

/-- The two `RuntimeError`s raised by `SessionManager.create_session`. -/
inductive SessionError
  | duplicateSession
  | capacityExceeded
deriving DecidableEq

structure SessionManager where
  sessions : List (String × Session)
  max_sessions : Nat
  idle_timeout : Nat
deriving DecidableEq

def SessionManager.init (max_sessions idle_timeout : Nat) : SessionManager :=
  { sessions := [], max_sessions := max_sessions, idle_timeout := idle_timeout }

/-- quality → sample-rate map in `create_session` (default 16000). -/
def sample_rate_map (quality : String) : Nat :=
  if quality = "low" then 8000
  else if quality = "medium" then 16000
  else if quality = "high" then 48000
  else 16000

/-- `SessionManager.create_session`: duplicate check, then capacity check,
then insertion of a fresh `Session` record. -/
def SessionManager.create_session (m : SessionManager)
    (session_id user_id request_sid quality : String) (now : Nat) :
    Except SessionError (SessionManager × Session) :=
  if (lookupKey m.sessions session_id).isSome then .error .duplicateSession
  else if m.max_sessions ≤ m.sessions.length then .error .capacityExceeded
  else
    let s : Session :=
      { session_id := session_id
        user_id := user_id
        request_sid := request_sid
        quality := quality
        sample_rate := sample_rate_map quality
        created_at := now
        last_activity := now
        last_chunk_id := -1
        audio_buffer := none
        persisted_final_segments := [] }
    .ok ({ m with sessions := m.sessions ++ [(session_id, s)] }, s)

/-- `SessionManager.get_session` -/
def SessionManager.get_session (m : SessionManager) (session_id : String) :
    Option Session :=
  lookupKey m.sessions session_id

/-- `SessionManager.update_activity` -/
def SessionManager.update_activity (m : SessionManager) (session_id : String)
    (now : Nat) : SessionManager :=
  { m with
    sessions := updateKey m.sessions session_id (fun s => { s with last_activity := now }) }

/-- `SessionManager.remove_session`: pops the entry and returns it (idempotent:
an unknown id is a no-op). -/
def SessionManager.remove_session (m : SessionManager) (session_id : String) :
    Option Session × SessionManager :=
  match lookupKey m.sessions session_id with
  | none => (none, m)
  | some s => (some s, { m with sessions := eraseKey m.sessions session_id })

/-- `SessionManager.cleanup_idle_sessions`: drops every session idle strictly
longer than the timeout and returns only how many were dropped. -/
def SessionManager.cleanup_idle_sessions (m : SessionManager) (now : Nat) :
    Nat × SessionManager :=
  let idle := m.sessions.filter
    (fun p => decide (m.idle_timeout < Session.get_idle_seconds p.2 now))
  let kept := m.sessions.filter
    (fun p => !(decide (m.idle_timeout < Session.get_idle_seconds p.2 now)))
  (idle.length, { m with sessions := kept })

/-- `SessionManager.clear_all` -/
def SessionManager.clear_all (m : SessionManager) : Nat × SessionManager :=
  (m.sessions.length, { m with sessions := [] })

/-- A registry operation, for quantifying over interleavings of the
`SessionManager` mutators. -/
inductive RegOp
  | createOp (session_id user_id request_sid quality : String) (now : Nat)
  | removeOp (session_id : String)
  | cleanupOp (now : Nat)
  | activityOp (session_id : String) (now : Nat)
  | clearOp

/-- Apply one registry operation; a failing `create_session` leaves the
registry unchanged (the exception propagates to the caller). -/
def SessionManager.applyOp (m : SessionManager) (op : RegOp) : SessionManager :=
  match op with
  | .createOp sid uid rsid q now =>
    match m.create_session sid uid rsid q now with
    | .ok r => r.1
    | .error _ => m
  | .removeOp sid => (m.remove_session sid).2
  | .cleanupOp now => (m.cleanup_idle_sessions now).2
  | .activityOp sid now => m.update_activity sid now
  | .clearOp => (m.clear_all).2

/-! ### TranscribeStreamingManager (`aws_services/transcribe_streaming_manager.py`) -/

/-- Observable per-session bridge state: whether the audio-sender task and the
result-handler task have exited, plus the chunks handed off to the outbound
queue so far. -/
structure StreamInfo where
  sender_done : Bool
  results_done : Bool
  queued : List Bytes
deriving DecidableEq

/-- The `RuntimeError`s raised by `send_audio_chunk` (no active stream for the
session, sender task stopped, result-handler task stopped). -/
inductive StreamError
  | noActiveStream
  | senderStopped
  | resultHandlerStopped
deriving DecidableEq

abbrev StreamMap := List (String × StreamInfo)

/-- `TranscribeStreamingManager.send_audio_chunk`: looks up the active stream,
checks that neither background task has exited, then enqueues the chunk on the
session loop's audio queue (a non-blocking handoff). -/
def send_audio_chunk (streams : StreamMap) (session_id : String) (chunk : Bytes) :
    Except StreamError StreamMap :=
  match lookupKey streams session_id with
  | none => .error .noActiveStream
  | some si =>
    if si.sender_done then .error .senderStopped
    else if si.results_done then .error .resultHandlerStopped
    else .ok (updateKey streams session_id (fun s => { s with queued := s.queued ++ [chunk] }))

/-- `TranscribeStreamingManager.end_stream`: the `finally` block always pops
the session from the active-stream table; errors are swallowed. -/
def end_stream (streams : StreamMap) (session_id : String) : StreamMap :=
  eraseKey streams session_id

/-! ### World state threaded through the SocketIO handlers -/

/-- Everything `socketio_handlers.py` touches: the session registry, the
active-stream table, the transcript rows appended by
`database_manager.append_transcript_text`, the transcription rows completed by
the `session_end` UPDATE, the object-store keys written by
`storage_manager.upload_audio_bytes`, two environment oracles (whether the S3
upload succeeds, whether the transcript UPDATE succeeds — the source ignores
its boolean result), an oracle for an exception escaping inside the guarded
block of `result_callback`, and the wall clock. -/
structure World where
  sm : SessionManager
  streams : StreamMap
  transcripts : List (String × String)
  completed : List (String × String × ℚ)
  stored_keys : List String
  uploadOk : Bool
  dbAppendOk : Bool
  raiseInCallback : Bool
  now : Nat
deriving DecidableEq

def World.setSession (w : World) (sid : String) (s : Session) : World :=
  { w with sm := { w.sm with sessions := updateKey w.sm.sessions sid (fun _ => s) } }

/-! ### `handle_audio_chunk` (`socketio_handlers.py` lines 244-367) -/

/-- Base64 payload after JSON parsing: either it decodes (`validate=True`
passes) to some bytes, or decoding raises. -/
inductive B64Payload
  | valid (bytes : Bytes)
  | invalid
deriving DecidableEq

/-- The `chunk_id` field: an `int(...)`-convertible value or not. -/
inductive ChunkIdField
  | intVal (n : Int)
  | nonInt
deriving DecidableEq

structure AudioChunkMsg where
  session_id : Option String
  audio_data : Option B64Payload
  chunk_id : Option ChunkIdField
deriving DecidableEq

/-- The `audio_chunk` event payload: raw binary frame, JSON object, or
something else entirely. -/
inductive AudioChunkInput
  | binaryData (bytes : Bytes)
  | jsonMsg (msg : AudioChunkMsg)
  | otherPayload
deriving DecidableEq

/-- An `emit('error', ...)` sent to the client: error code and `recoverable`. -/
abbrev EmittedError := String × Bool

/-- Tail of `handle_audio_chunk` after the sequencing check: append to the
session's `AudioBuffer` (a raised `BufferOverflow` escapes to the handler's
outer `except`, emitting `AUDIO_PROCESSING_FAILED`), forward to the bridge
(a raised `RuntimeError` is caught and emitted as `STREAM_NOT_READY`), then
update the activity timestamp.  `w` already carries the watermark update; `s`
is the session as stored in `w`. -/
def forwardChunk (w : World) (sid : String) (s : Session) (audio_bytes : Bytes) :
    World × Option EmittedError :=
  match s.audio_buffer with
  | none => (w, some (("AUDIO_PROCESSING_FAILED"), true))
  | some buf =>
    match buf.append audio_bytes with
    | (_, some _) => (w, some (("AUDIO_PROCESSING_FAILED"), true))
    | (buf2, none) =>
      let s2 := { s with audio_buffer := some buf2 }
      let w2 := w.setSession sid s2
      match send_audio_chunk w2.streams sid audio_bytes with
      | .error _ => (w2, some (("STREAM_NOT_READY"), true))
      | .ok streams2 =>
        let w3 := { w2 with streams := streams2 }
        ({ w3 with sm := w3.sm.update_activity sid w3.now }, none)

/-- `handle_audio_chunk`: binary frames are rejected as unimplemented; JSON
frames are validated (missing/empty fields return silently, an unknown session
emits `SESSION_NOT_FOUND`, an undecodable payload emits
`INVALID_AUDIO_CHUNK`), the optional `chunk_id` watermark drops
duplicates/replays silently, and an accepted chunk advances the watermark
before the buffer append and bridge forward are attempted. -/
def handle_audio_chunk (w : World) (input : AudioChunkInput) :
    World × Option EmittedError :=
  match input with
  | .binaryData bs =>
    if bs.length < 2 ∨ bs.headD 0 ≠ 1 then (w, none)
    else (w, some (("IMPLEMENTATION_PENDING"), false))
  | .otherPayload => (w, none)
  | .jsonMsg msg =>
    match msg.session_id, msg.audio_data with
    | none, _ => (w, none)
    | some _, none => (w, none)
    | some sid, some payload =>
      if sid = "" ∨ payload = B64Payload.valid [] then (w, none)
      else
        match lookupKey w.sm.sessions sid with
        | none => (w, some (("SESSION_NOT_FOUND"), false))
        | some s =>
          match payload with
          | .invalid => (w, some (("INVALID_AUDIO_CHUNK"), true))
          | .valid audio_bytes =>
            if audio_bytes = [] then (w, none)
            else
              match msg.chunk_id with
              | some (.intVal n) =>
                if n ≤ s.last_chunk_id then (w, none)
                else
                  let s1 := { s with last_chunk_id := n }
                  forwardChunk (World.setSession w sid s1) sid s1 audio_bytes
              | some .nonInt => forwardChunk w sid s audio_bytes
              | none => forwardChunk w sid s audio_bytes

/-- Fold a list of `audio_chunk` events through the handler, collecting the
emitted error (if any) of every event in order. -/
def runChunks (w : World) (inputs : List AudioChunkInput) :
    World × List (Option EmittedError) :=
  inputs.foldl
    (fun acc m =>
      let r := handle_audio_chunk acc.1 m
      (r.1, acc.2 ++ [r.2]))
    (w, [])

/-! ### `handle_session_end` (`socketio_handlers.py` lines 370-448) -/

/-- Observable actions of the finalization pipeline, in the order the handler
performs them: ending the upstream stream, finalizing the audio buffer,
uploading the artifact (with its outcome), updating the transcription row,
removing the session from the registry, and messages emitted to the client. -/
inductive Effect
  | endStreamEff (session_id : String)
  | finalizeEff (session_id : String)
  | uploadEff (key : String) (ok : Bool)
  | dbUpdateEff (session_id : String)
  | removeEff (session_id : String)
  | emitErrorEff (code : String) (recoverable : Bool)
  | emitCompleteEff (session_id : String) (key : String)
deriving DecidableEq

/-- Effects that belong to the artifact-producing finalization sequence (as
opposed to bare registry removal or an error report). -/
def isFinalizationEffect : Effect → Bool
  | .endStreamEff _ => true
  | .finalizeEff _ => true
  | .uploadEff _ _ => true
  | .dbUpdateEff _ => true
  | .emitCompleteEff _ _ => true
  | .removeEff _ => false
  | .emitErrorEff _ _ => false

/-- The S3 key built in `handle_session_end`:
`audio/{user_id}/{timestamp}_{session_id}.mp3`. -/
def mkS3Key (user_id : String) (now : Nat) (session_id : String) : String :=
  ("audio/") ++ user_id ++ ("/") ++ (toString now) ++ ("_") ++ session_id ++ (".mp3")

/-- `handle_session_end`: a missing or unknown session id returns silently;
otherwise the handler ends the upstream stream, finalizes the buffer to MP3
(an exception — e.g. an empty buffer — escapes to the outer `except`, which
emits `SESSION_END_FAILED`), uploads the artifact, and only on upload success
updates the transcription row, removes the session from the registry, and
emits `session_complete`.  On upload failure it emits a non-recoverable
`S3_UPLOAD_FAILED` error and returns with the session still registered. -/
def handle_session_end (w : World) (session_id_field : Option String) :
    World × List Effect :=
  match session_id_field with
  | none => (w, [])
  | some sid =>
    if sid = "" then (w, [])
    else
      match lookupKey w.sm.sessions sid with
      | none => (w, [])
      | some s =>
        let w1 : World := { w with streams := end_stream w.streams sid }
        match s.audio_buffer with
        | none =>
          (w1, [Effect.endStreamEff sid, Effect.emitErrorEff ("SESSION_END_FAILED") false])
        | some buf =>
          match buf.finalize_to_mp3 with
          | .error _ =>
            (w1, [Effect.endStreamEff sid, Effect.emitErrorEff ("SESSION_END_FAILED") false])
          | .ok _ =>
            let key := mkS3Key s.user_id w1.now sid
            if w1.uploadOk then
              let w2 : World := { w1 with stored_keys := w1.stored_keys ++ [key] }
              let w3 : World :=
                { w2 with completed := w2.completed ++ [(sid, key, buf.get_total_duration)] }
              let w4 : World := { w3 with sm := (w3.sm.remove_session sid).2 }
              (w4,
                [Effect.endStreamEff sid, Effect.finalizeEff sid, Effect.uploadEff key true,
                  Effect.dbUpdateEff sid, Effect.removeEff sid, Effect.emitCompleteEff sid key])
            else
              (w1,
                [Effect.endStreamEff sid, Effect.finalizeEff sid, Effect.uploadEff key false,
                  Effect.emitErrorEff ("S3_UPLOAD_FAILED") false])

/-! ### Idle sweep background task (`socketio_handlers.start_background_tasks`) -/

/-- One iteration of the `cleanup_idle_sessions` background task: it calls
`SessionManager.cleanup_idle_sessions` and logs the returned count.  It makes
no finalization calls whatsoever — the dropped `Session` objects are not
returned to it, so its effect trace is empty. -/
def backgroundSweepStep (w : World) : World × List Effect :=
  ({ w with sm := (w.sm.cleanup_idle_sessions w.now).2 }, [])

/-! ### `result_callback` (`socketio_handlers.py` lines 131-157) -/

/-- A transcription result delivered by the bridge (confidence and timestamp
play no role in the routing/persistence logic). -/
structure ResultData where
  is_partial : Bool
  text : String
  segment_id : String
deriving DecidableEq

/-- Where the `transcription_result` event is emitted. -/
inductive Emission
  | toRoom (room : String)
  | broadcast
deriving DecidableEq

/-- Python `str.strip()`: drop whitespace from both ends. -/
def pyStrip (s : String) : String :=
  String.mk (((s.data.dropWhile Char.isWhitespace).reverse.dropWhile Char.isWhitespace).reverse)

/-- `result_callback`: resolve the session's transport room; persist the
stripped text of a final (`is_partial=false`) segment once per `segment_id`
(the boolean result of `append_transcript_text` is ignored by the source, so a
soft database failure still marks the segment as persisted); any exception
inside the guarded block resets the target room, after which the result is
emitted without a room (broadcast to all) instead of being dropped. -/
def result_callback (w : World) (sess_id : String) (rd : ResultData) :
    World × Emission :=
  match lookupKey w.sm.sessions sess_id with
  | none => (w, .broadcast)
  | some s =>
    if ResultData.is_partial rd then (w, .toRoom s.request_sid)
    else
      let t := pyStrip rd.text
      if t = "" then (w, .toRoom s.request_sid)
      else if memStr rd.segment_id s.persisted_final_segments then (w, .toRoom s.request_sid)
      else if w.raiseInCallback then (w, .broadcast)
      else
        let w1 : World :=
          { w with
            transcripts := w.transcripts ++ (if w.dbAppendOk then [(sess_id, t)] else []) }
        let s1 : Session :=
          { s with persisted_final_segments := s.persisted_final_segments ++ [rd.segment_id] }
        (w1.setSession sess_id s1, .toRoom s.request_sid)

/-- Deliver a list of results for one session through `result_callback`. -/
def deliverResults (w : World) (sess_id : String) (rds : List ResultData) : World :=
  rds.foldl (fun acc rd => (result_callback acc sess_id rd).1) w

/-- Number of transcript rows appended for a session. -/
def transcriptAppendCount (w : World) (sess_id : String) : Nat :=
  (w.transcripts.filter (fun p => decide (p.1 = sess_id))).length

/-! ### Helper lemmas -/

theorem lookupKey_updateKey {α : Type} (l : List (String × α)) (k k2 : String)
    (f : α → α) :
    lookupKey (updateKey l k f) k2 =
      if k2 = k then (lookupKey l k2).map f else lookupKey l k2 := by
  induction l with
  | nil => simp [lookupKey, updateKey]
  | cons p rest ih =>
    by_cases hpk : p.1 = k
    · by_cases hpk2 : p.1 = k2
      · have hk2 : k2 = k := hpk2.symm.trans hpk
        simp [updateKey, lookupKey, hpk, hpk2, hk2]
      · have hk2 : ¬ (k2 = k) := fun h => hpk2 (hpk.trans h.symm)
        have hk2s : ¬ (k = k2) := fun h => hk2 h.symm
        simpa [updateKey, lookupKey, hpk, hpk2, hk2, hk2s] using ih
    · by_cases hpk2 : p.1 = k2
      · have hk2 : ¬ (k2 = k) := fun h => hpk (hpk2.trans h)
        simp [updateKey, lookupKey, hpk, hpk2, hk2]
      · simpa [updateKey, lookupKey, hpk, hpk2] using ih

theorem length_updateKey {α : Type} (l : List (String × α)) (k : String) (f : α → α) :
    (updateKey l k f).length = l.length := by
  simp [updateKey]

theorem memStr_append_self (x : String) (l : List String) :
    memStr x (l ++ [x]) = true := by
  induction l with
  | nil => simp [memStr]
  | cons y rest ih =>
    by_cases h : y = x <;> simp [memStr, h, ih]

theorem appendAll_within_cap (cs : List Bytes) (b : AudioBuffer)
    (h : b.total_bytes + sumBytes cs ≤ b.max_size_bytes) :
    (b.appendAll cs).2 = none ∧
      (b.appendAll cs).1.total_bytes = b.total_bytes + sumBytes cs ∧
      (b.appendAll cs).1.max_size_bytes = b.max_size_bytes := by
  induction cs generalizing b with
  | nil => simp [AudioBuffer.appendAll, sumBytes]
  | cons c rest ih =>
    have hsum : sumBytes (c :: rest) = c.length + sumBytes rest := by
      simp [sumBytes]
    have hc : ¬ (b.max_size_bytes < b.total_bytes + c.length) := by
      have : b.total_bytes + c.length ≤ b.max_size_bytes := by
        have := h
        rw [hsum] at this
        omega
      omega
    have happ :
        b.append c =
          ({ b with chunks := b.chunks ++ [c], total_bytes := b.total_bytes + c.length },
            none) := by
      simp [AudioBuffer.append, hc]
    have hrec := ih { b with chunks := b.chunks ++ [c], total_bytes := b.total_bytes + c.length }
      (by simp only []; rw [hsum] at h; omega)
    refine ⟨?_, ?_, ?_⟩ <;>
      simp [AudioBuffer.appendAll, happ, hrec.1, hrec.2.1, hrec.2.2, hsum]
    all_goals omega

theorem applyOp_length_le (maxS : Nat) (m : SessionManager) (op : RegOp)
    (hmax : m.max_sessions = maxS) (h : m.sessions.length ≤ maxS) :
    (m.applyOp op).sessions.length ≤ maxS ∧ (m.applyOp op).max_sessions = maxS := by
  subst hmax
  cases op with
  | createOp sid uid rsid q now =>
    by_cases hdup : (lookupKey m.sessions sid).isSome
    · simp [SessionManager.applyOp, SessionManager.create_session, hdup, h]
    · by_cases hcap : m.max_sessions ≤ m.sessions.length
      · simp [SessionManager.applyOp, SessionManager.create_session, hdup, hcap, h]
      · simp [SessionManager.applyOp, SessionManager.create_session, hdup, hcap]
        omega
  | removeOp sid =>
    cases hl : lookupKey m.sessions sid with
    | none => simp [SessionManager.applyOp, SessionManager.remove_session, hl, h]
    | some s =>
      simp [SessionManager.applyOp, SessionManager.remove_session, hl, eraseKey]
      exact le_trans (List.length_filter_le _ _) h
  | cleanupOp now =>
    simp [SessionManager.applyOp, SessionManager.cleanup_idle_sessions]
    exact le_trans (List.length_filter_le _ _) h
  | activityOp sid now =>
    simp [SessionManager.applyOp, SessionManager.update_activity, length_updateKey, h]
  | clearOp =>
    simp [SessionManager.applyOp, SessionManager.clear_all]

theorem foldl_applyOp_invariant (maxS idleT : Nat) (ops : List RegOp) :
    (ops.foldl SessionManager.applyOp (SessionManager.init maxS idleT)).sessions.length ≤ maxS ∧
      (ops.foldl SessionManager.applyOp (SessionManager.init maxS idleT)).max_sessions = maxS := by
  suffices hgen : ∀ (m : SessionManager), m.max_sessions = maxS → m.sessions.length ≤ maxS →
      (ops.foldl SessionManager.applyOp m).sessions.length ≤ maxS ∧
        (ops.foldl SessionManager.applyOp m).max_sessions = maxS by
    exact hgen (SessionManager.init maxS idleT) rfl (by simp [SessionManager.init])
  induction ops with
  | nil => intro m hmax h; exact ⟨h, hmax⟩
  | cons op rest ih =>
    intro m hmax h
    have hstep := applyOp_length_le maxS m op hmax h
    exact ih (m.applyOp op) hstep.2 hstep.1

theorem lookupKey_forwardChunk_ne (w : World) (sid k : String) (s : Session)
    (bytes : Bytes) (hk : ¬ (k = sid)) :
    lookupKey (forwardChunk w sid s bytes).1.sm.sessions k =
      lookupKey w.sm.sessions k := by
  cases hbuf : s.audio_buffer with
  | none => simp [forwardChunk, hbuf]
  | some buf =>
    cases happ : buf.append bytes with
    | mk b2 oe =>
      cases oe with
      | some e => simp [forwardChunk, hbuf, happ]
      | none =>
        cases hsend : send_audio_chunk w.streams sid bytes with
        | error e =>
          simp [forwardChunk, hbuf, happ, hsend, World.setSession, lookupKey_updateKey, hk]
        | ok streams2 =>
          simp [forwardChunk, hbuf, happ, hsend, World.setSession,
            SessionManager.update_activity, lookupKey_updateKey, hk]

theorem lookupKey_forwardChunk_self (w : World) (sid : String) (s : Session)
    (bytes : Bytes) (hsid : lookupKey w.sm.sessions sid = some s) :
    ∃ v2, lookupKey (forwardChunk w sid s bytes).1.sm.sessions sid = some v2 ∧
      v2.last_chunk_id = s.last_chunk_id := by
  cases hbuf : s.audio_buffer with
  | none => exact ⟨s, by simp [forwardChunk, hbuf, hsid], rfl⟩
  | some buf =>
    cases happ : buf.append bytes with
    | mk b2 oe =>
      cases oe with
      | some e => exact ⟨s, by simp [forwardChunk, hbuf, happ, hsid], rfl⟩
      | none =>
        cases hsend : send_audio_chunk w.streams sid bytes with
        | error e =>
          refine ⟨{ s with audio_buffer := some b2 }, ?_, rfl⟩
          simp [forwardChunk, hbuf, happ, hsend, World.setSession, lookupKey_updateKey, hsid]
        | ok streams2 =>
          refine ⟨{ s with audio_buffer := some b2, last_activity := w.now }, ?_, rfl⟩
          simp [forwardChunk, hbuf, happ, hsend, World.setSession,
            SessionManager.update_activity, lookupKey_updateKey, hsid]

theorem handle_audio_chunk_drop (w : World) (sid : String) (s : Session) (n : Int)
    (bytes : Bytes) (hs : lookupKey w.sm.sessions sid = some s) (hsid : ¬ (sid = ""))
    (hb : ¬ (bytes = [])) (hn : n ≤ s.last_chunk_id) :
    handle_audio_chunk w
        (.jsonMsg
          { session_id := some sid, audio_data := some (.valid bytes),
            chunk_id := some (.intVal n) }) = (w, none) := by
  simp [handle_audio_chunk, hs, hsid, hb, hn]

theorem handle_audio_chunk_fresh (w : World) (sid : String) (s : Session) (n : Int)
    (bytes : Bytes) (hs : lookupKey w.sm.sessions sid = some s) (hsid : ¬ (sid = ""))
    (hb : ¬ (bytes = [])) (hn : s.last_chunk_id < n) :
    handle_audio_chunk w
        (.jsonMsg
          { session_id := some sid, audio_data := some (.valid bytes),
            chunk_id := some (.intVal n) }) =
      forwardChunk (World.setSession w sid { s with last_chunk_id := n }) sid
        { s with last_chunk_id := n } bytes := by
  have hn2 : ¬ (n ≤ s.last_chunk_id) := by omega
  simp [handle_audio_chunk, hs, hsid, hb, hn2]

theorem handle_audio_chunk_watermark_mono (w : World) (input : AudioChunkInput)
    (sid : String) (s : Session) (hs : lookupKey w.sm.sessions sid = some s) :
    ∃ s2, lookupKey (handle_audio_chunk w input).1.sm.sessions sid = some s2 ∧
      s.last_chunk_id ≤ s2.last_chunk_id := by
  cases input with
  | binaryData bs =>
    have hw : (handle_audio_chunk w (.binaryData bs)).1 = w := by
      simp only [handle_audio_chunk]
      split <;> rfl
    exact ⟨s, by rw [hw]; exact hs, le_refl _⟩
  | otherPayload => exact ⟨s, by simpa [handle_audio_chunk] using hs, le_refl _⟩
  | jsonMsg msg =>
    rcases msg with ⟨sidf, adf, cidf⟩
    cases sidf with
    | none => exact ⟨s, by simpa [handle_audio_chunk] using hs, le_refl _⟩
    | some sid0 =>
      cases adf with
      | none => exact ⟨s, by simpa [handle_audio_chunk] using hs, le_refl _⟩
      | some payload =>
        by_cases hfalsy : sid0 = "" ∨ payload = B64Payload.valid []
        · exact ⟨s, by simpa [handle_audio_chunk, hfalsy] using hs, le_refl _⟩
        · have hsid0 : ¬ (sid0 = "") := fun h => hfalsy (Or.inl h)
          have hbv : ¬ (payload = B64Payload.valid []) := fun h => hfalsy (Or.inr h)
          cases hl : lookupKey w.sm.sessions sid0 with
          | none =>
            exact ⟨s, by simpa [handle_audio_chunk, hsid0, hbv, hl] using hs, le_refl _⟩
          | some s0 =>
            cases payload with
            | invalid =>
              exact ⟨s, by simpa [handle_audio_chunk, hsid0, hbv, hl] using hs, le_refl _⟩
            | valid bytes =>
              have hmt : ¬ (bytes = []) := fun h => hbv (by rw [h])
              cases cidf with
              | none =>
                by_cases hk : sid = sid0
                · subst hk
                  have hss : s = s0 := by
                    rw [hs] at hl
                    exact Option.some.inj hl
                  subst hss
                  obtain ⟨v2, hv2, hlast⟩ := lookupKey_forwardChunk_self w sid s bytes hs
                  exact ⟨v2, by simpa [handle_audio_chunk, hsid0, hmt, hs] using hv2,
                    le_of_eq hlast.symm⟩
                · refine ⟨s, ?_, le_refl _⟩
                  have hne := lookupKey_forwardChunk_ne w sid0 sid s0 bytes hk
                  simpa [handle_audio_chunk, hsid0, hmt, hl, hne] using hs
              | some cid =>
                cases cid with
                | nonInt =>
                  by_cases hk : sid = sid0
                  · subst hk
                    have hss : s = s0 := by
                      rw [hs] at hl
                      exact Option.some.inj hl
                    subst hss
                    obtain ⟨v2, hv2, hlast⟩ := lookupKey_forwardChunk_self w sid s bytes hs
                    exact ⟨v2, by simpa [handle_audio_chunk, hsid0, hmt, hs] using hv2,
                      le_of_eq hlast.symm⟩
                  · refine ⟨s, ?_, le_refl _⟩
                    have hne := lookupKey_forwardChunk_ne w sid0 sid s0 bytes hk
                    simpa [handle_audio_chunk, hsid0, hmt, hl, hne] using hs
                | intVal n =>
                  by_cases hdup : n ≤ s0.last_chunk_id
                  · exact ⟨s,
                      by simpa [handle_audio_chunk, hsid0, hmt, hl, hdup] using hs, le_refl _⟩
                  · by_cases hk : sid = sid0
                    · subst hk
                      have hss : s = s0 := by
                        rw [hs] at hl
                        exact Option.some.inj hl
                      subst hss
                      have hw1 :
                          lookupKey
                              (World.setSession w sid { s with last_chunk_id := n }).sm.sessions
                              sid =
                            some { s with last_chunk_id := n } := by
                        simp [World.setSession, lookupKey_updateKey, hs]
                      obtain ⟨v2, hv2, hlast⟩ :=
                        lookupKey_forwardChunk_self
                          (World.setSession w sid { s with last_chunk_id := n }) sid
                          { s with last_chunk_id := n } bytes hw1
                      refine ⟨v2,
                        by simpa [handle_audio_chunk, hsid0, hmt, hs, hdup] using hv2, ?_⟩
                      simp only [] at hlast
                      rw [hlast]
                      omega
                    · refine ⟨s, ?_, le_refl _⟩
                      have hne :=
                        lookupKey_forwardChunk_ne
                          (World.setSession w sid0 { s0 with last_chunk_id := n }) sid0 sid
                          { s0 with last_chunk_id := n } bytes hk
                      have hsame :
                          lookupKey
                              (World.setSession w sid0 { s0 with last_chunk_id := n }).sm.sessions
                              sid =
                            some s := by
                        simp [World.setSession, lookupKey_updateKey, hk, hs]
                      rw [hsame] at hne
                      simpa [handle_audio_chunk, hsid0, hmt, hl, hdup] using hne

/-! ### State observers used by the theorems -/

def sessionChunkCount (w : World) (sid : String) : Nat :=
  match lookupKey w.sm.sessions sid with
  | some s =>
    match s.audio_buffer with
    | some b => b.chunks.length
    | none => 0
  | none => 0

def sessionWatermark (w : World) (sid : String) : Int :=
  match lookupKey w.sm.sessions sid with
  | some s => s.last_chunk_id
  | none => -2

def streamQueuedCount (w : World) (sid : String) : Nat :=
  match lookupKey w.streams sid with
  | some si => si.queued.length
  | none => 0

/-- A well-formed JSON `audio_chunk` event with an integer `chunk_id`. -/
def chunkEvent (sid : String) (n : Int) (bytes : Bytes) : AudioChunkInput :=
  .jsonMsg
    { session_id := some sid, audio_data := some (.valid bytes),
      chunk_id := some (.intVal n) }

/-! ### Concrete fixtures -/

def bufSmall : AudioBuffer := AudioBuffer.init 16000 1800

def bufOne : AudioBuffer := (bufSmall.append [7]).1

def bufTwo : AudioBuffer := (bufSmall.append [7, 8]).1

def sessA : Session :=
  { session_id := ("s1"), user_id := ("u1"), request_sid := ("r1"), quality := ("medium"),
    sample_rate := 16000, created_at := 0, last_activity := 0, last_chunk_id := -1,
    audio_buffer := some bufSmall, persisted_final_segments := [] }

def sessIdle : Session := { sessA with audio_buffer := some bufOne }

def streamOkA : StreamInfo := { sender_done := false, results_done := false, queued := [] }

def streamDead : StreamInfo := { sender_done := true, results_done := false, queued := [] }

def mkW (sess : List (String × Session)) (str : StreamMap) (upOk : Bool) (now : Nat) :
    World :=
  { sm := { sessions := sess, max_sessions := 100, idle_timeout := 300 },
    streams := str, transcripts := [], completed := [], stored_keys := [],
    uploadOk := upOk, dbAppendOk := true, raiseInCallback := false, now := now }

def wC5 : World := mkW [(("s1"), sessA)] [(("s1"), streamOkA)] true 10

def msgsC5 : List AudioChunkInput :=
  [chunkEvent ("s1") 0 [7], chunkEvent ("s1") 1 [7], chunkEvent ("s1") 2 [7],
    chunkEvent ("s1") 1 [7], chunkEvent ("s1") 3 [7]]

def wIdle : World := mkW [(("s1"), sessIdle)] [(("s1"), streamOkA)] true 1000

def wDead : World := mkW [(("s1"), sessIdle)] [(("s1"), streamDead)] true 10

def wC7 : World := mkW [(("s1"), sessA)] [] true 10

def wRaise : World := { wC7 with raiseInCallback := true }

/-! ### Claim theorems -/

/-- C1 (counterexample): the claim says the idle sweep returns ownership of
each removed `Session` and the caller runs the same finalization sequence as
an explicit `session_end` (end stream, finalize buffer, upload, update record,
notify).  At the concrete state `wIdle` (one session idle for 1000s against a
300s timeout, with buffered audio and a healthy stream) the sweep removes the
session — `cleanup_idle_sessions` returns only the count 1 — yet performs not
a single finalization effect, while `handle_session_end` on the same state
performs a non-empty finalization sequence.  So the idle flow does not produce
the artifact/notification outcome of the explicit-end flow. -/
theorem C1_counterexample :
    (wIdle.sm.cleanup_idle_sessions wIdle.now).1 = 1 ∧
    (backgroundSweepStep wIdle).1.sm.sessions = [] ∧
    (backgroundSweepStep wIdle).2.filter isFinalizationEffect = [] ∧
    ¬ ((handle_session_end wIdle (some ("s1"))).2.filter isFinalizationEffect = []) := by
  decide

/-- C1 (amended): the idle sweep drops every session whose idle time exceeds
the timeout and returns only their count; the removed `Session` objects are
not handed back to the background task, and the sweep performs no finalization
effect at all — it never ends the upstream stream, never finalizes the buffer,
never uploads an artifact, never updates the transcript record, and never
notifies the client — so the idle flow and the explicit-end flow do not share
a finalization path. -/
theorem C1_sweep_discards_sessions (w : World) :
    (backgroundSweepStep w).2 = [] ∧
    (backgroundSweepStep w).1.sm.sessions =
      w.sm.sessions.filter
        (fun p => decide (Session.get_idle_seconds p.2 w.now ≤ w.sm.idle_timeout)) ∧
    (w.sm.cleanup_idle_sessions w.now).1 =
      (w.sm.sessions.filter
        (fun p => decide (w.sm.idle_timeout < Session.get_idle_seconds p.2 w.now))).length ∧
    (backgroundSweepStep w).1.streams = w.streams ∧
    (backgroundSweepStep w).1.transcripts = w.transcripts ∧
    (backgroundSweepStep w).1.stored_keys = w.stored_keys ∧
    (backgroundSweepStep w).1.completed = w.completed := by
  have hpt : ∀ p : String × Session,
      (!(decide (w.sm.idle_timeout < Session.get_idle_seconds p.2 w.now))) =
        decide (Session.get_idle_seconds p.2 w.now ≤ w.sm.idle_timeout) := by
    intro p
    rcases Nat.lt_or_ge w.sm.idle_timeout (Session.get_idle_seconds p.2 w.now) with h | h
    · simp [h, Nat.not_le.mpr h]
    · simp [Nat.not_lt.mpr h, h]
  refine ⟨rfl, ?_, rfl, rfl, rfl, rfl, rfl⟩
  simp only [backgroundSweepStep, SessionManager.cleanup_idle_sessions]
  exact List.filter_congr (fun p _ => hpt p)

/-- C3: for every interleaving of registry operations starting from an empty
registry, the number of live sessions never exceeds `max_sessions`; and when
the registry is full, a `create_session` with a fresh id fails with
`capacityExceeded` and leaves the registry exactly as it was (no session state
is created). -/
theorem C3_capacity_invariant (maxS idleT : Nat) (ops : List RegOp)
    (sid uid rsid q : String) (now : Nat)
    (hfresh :
      lookupKey (ops.foldl SessionManager.applyOp (SessionManager.init maxS idleT)).sessions
          sid = none) :
    (∀ ops2 : List RegOp,
      (ops2.foldl SessionManager.applyOp (SessionManager.init maxS idleT)).sessions.length
        ≤ maxS) ∧
    ((ops.foldl SessionManager.applyOp (SessionManager.init maxS idleT)).sessions.length = maxS →
      (ops.foldl SessionManager.applyOp (SessionManager.init maxS idleT)).create_session
          sid uid rsid q now = .error .capacityExceeded ∧
      (ops.foldl SessionManager.applyOp (SessionManager.init maxS idleT)).applyOp
          (.createOp sid uid rsid q now) =
        ops.foldl SessionManager.applyOp (SessionManager.init maxS idleT)) := by
  constructor
  · intro ops2
    exact (foldl_applyOp_invariant maxS idleT ops2).1
  · intro hfull
    have hmax := (foldl_applyOp_invariant maxS idleT ops).2
    have hcap :
        (ops.foldl SessionManager.applyOp (SessionManager.init maxS idleT)).max_sessions ≤
          (ops.foldl SessionManager.applyOp (SessionManager.init maxS idleT)).sessions.length := by
      rw [hmax, hfull]
    have hdup :
        ¬ ((lookupKey
            (ops.foldl SessionManager.applyOp (SessionManager.init maxS idleT)).sessions
            sid).isSome = true) := by
      simp [hfresh]
    constructor
    · simp [SessionManager.create_session, hdup, hcap]
    · simp [SessionManager.applyOp, SessionManager.create_session, hdup, hcap]

/-- C3 witness: a 1-slot registry filled by one create; a second create with a
fresh id is rejected with `capacityExceeded` and changes nothing. -/
theorem C3_witness :
    lookupKey
        ([RegOp.createOp ("a") ("u") ("r") ("medium") 0].foldl SessionManager.applyOp
          (SessionManager.init 1 300)).sessions ("b") = none ∧
    ((∀ ops2 : List RegOp,
      (ops2.foldl SessionManager.applyOp (SessionManager.init 1 300)).sessions.length ≤ 1) ∧
    (([RegOp.createOp ("a") ("u") ("r") ("medium") 0].foldl SessionManager.applyOp
          (SessionManager.init 1 300)).sessions.length = 1 →
      ([RegOp.createOp ("a") ("u") ("r") ("medium") 0].foldl SessionManager.applyOp
          (SessionManager.init 1 300)).create_session ("b") ("u2") ("r2") ("low") 5 =
        .error .capacityExceeded ∧
      ([RegOp.createOp ("a") ("u") ("r") ("medium") 0].foldl SessionManager.applyOp
          (SessionManager.init 1 300)).applyOp (.createOp ("b") ("u2") ("r2") ("low") 5) =
        [RegOp.createOp ("a") ("u") ("r") ("medium") 0].foldl SessionManager.applyOp
          (SessionManager.init 1 300))) :=
  ⟨by decide,
    C3_capacity_invariant 1 300 [RegOp.createOp ("a") ("u") ("r") ("medium") 0]
      ("b") ("u2") ("r2") ("low") 5 (by decide)⟩

/-- C4 (counterexample): the claim says that when the bridge's sender task has
exited, the orchestrator surfaces the failed `sendChunk` as a terminal
condition — the session is ended rather than kept alive.  At the concrete
state `wDead` (sender task done) the handler emits `STREAM_NOT_READY` marked
`recoverable = true` and the session is still registered afterwards: the
session is kept alive, not ended. -/
theorem C4_counterexample :
    (handle_audio_chunk wDead (chunkEvent ("s1") 0 [7])).2 =
      some (("STREAM_NOT_READY"), true) ∧
    (lookupKey (handle_audio_chunk wDead (chunkEvent ("s1") 0 [7])).1.sm.sessions
        ("s1")).isSome = true := by
  decide

/-- C4 (amended): when the sender task of a session's bridge has exited,
`send_audio_chunk` fails with `senderStopped`; the orchestrator reports this
to the client as a `STREAM_NOT_READY` error flagged recoverable, does not
retry or forward the chunk (the stream table is unchanged), and does not end
the session — it remains in the registry. -/
theorem C4_sender_stopped_keeps_session (w : World) (sid : String) (s : Session)
    (si : StreamInfo) (buf : AudioBuffer) (n : Int) (bytes : Bytes)
    (hs : lookupKey w.sm.sessions sid = some s) (hsid : ¬ (sid = ""))
    (hb : ¬ (bytes = [])) (hbuf : s.audio_buffer = some buf)
    (hcap : ¬ (buf.max_size_bytes < buf.total_bytes + bytes.length))
    (hstream : lookupKey w.streams sid = some si) (hdone : si.sender_done = true)
    (hn : s.last_chunk_id < n) :
    send_audio_chunk w.streams sid bytes = .error .senderStopped ∧
    (handle_audio_chunk w (chunkEvent sid n bytes)).2 = some (("STREAM_NOT_READY"), true) ∧
    (lookupKey (handle_audio_chunk w (chunkEvent sid n bytes)).1.sm.sessions sid).isSome
      = true ∧
    (handle_audio_chunk w (chunkEvent sid n bytes)).1.streams = w.streams := by
  have hsend : send_audio_chunk w.streams sid bytes = .error .senderStopped := by
    simp [send_audio_chunk, hstream, hdone]
  have hfr := handle_audio_chunk_fresh w sid s n bytes hs hsid hb hn
  have happ :
      buf.append bytes =
        ({ buf with
            chunks := buf.chunks ++ [bytes],
            total_bytes := buf.total_bytes + bytes.length },
          none) := by
    simp [AudioBuffer.append, hcap]
  refine ⟨hsend, ?_, ?_, ?_⟩ <;>
    simp [chunkEvent, hfr, forwardChunk, hbuf, happ, hsend, World.setSession,
      lookupKey_updateKey, hs]

/-- C4 witness: the amended theorem applied at the concrete state `wDead`. -/
theorem C4_witness :
    lookupKey wDead.sm.sessions ("s1") = some sessIdle ∧
    (send_audio_chunk wDead.streams ("s1") [7] = .error .senderStopped ∧
      (handle_audio_chunk wDead (chunkEvent ("s1") 0 [7])).2 =
        some (("STREAM_NOT_READY"), true) ∧
      (lookupKey (handle_audio_chunk wDead (chunkEvent ("s1") 0 [7])).1.sm.sessions
          ("s1")).isSome = true ∧
      (handle_audio_chunk wDead (chunkEvent ("s1") 0 [7])).1.streams = wDead.streams) :=
  ⟨by decide,
    C4_sender_stopped_keeps_session wDead ("s1") sessIdle streamDead bufOne 0 [7]
      (by decide) (by decide) (by decide) (by decide) (by decide) (by decide) (by decide)
      (by decide)⟩

/-- C5: the watermark behaviour of `handle_audio_chunk`.  (i) On the concrete
session of `wC5` (watermark starting at -1), feeding chunks with sequence
numbers [0,1,2,1,3] emits no error, forwards exactly 4 chunks to both the
`AudioBuffer` and the bridge queue (the replayed 1 is dropped silently), and
leaves `last_chunk_id = 3`.  (ii) In general a chunk whose sequence number is
at or below the current watermark is dropped silently: the handler returns the
state unchanged with no emission.  (iii) In general the watermark never
decreases across any `audio_chunk` event. -/
theorem C5_monotonic_watermark (w : World) (sid : String) (s : Session) (n : Int)
    (bytes : Bytes) (input : AudioChunkInput)
    (hs : lookupKey w.sm.sessions sid = some s) (hsid : ¬ (sid = ""))
    (hb : ¬ (bytes = [])) (hn : n ≤ s.last_chunk_id) :
    ((runChunks wC5 msgsC5).2 = [none, none, none, none, none] ∧
      sessionChunkCount (runChunks wC5 msgsC5).1 ("s1") = 4 ∧
      streamQueuedCount (runChunks wC5 msgsC5).1 ("s1") = 4 ∧
      sessionWatermark (runChunks wC5 msgsC5).1 ("s1") = 3) ∧
    handle_audio_chunk w (chunkEvent sid n bytes) = (w, none) ∧
    (∃ s2, lookupKey (handle_audio_chunk w input).1.sm.sessions sid = some s2 ∧
      s.last_chunk_id ≤ s2.last_chunk_id) := by
  refine ⟨by decide, ?_, handle_audio_chunk_watermark_mono w input sid s hs⟩
  exact handle_audio_chunk_drop w sid s n bytes hs hsid hb hn

/-- C5 witness: the theorem applied at the concrete state `wC5` with a
duplicate sequence number (-1 is at the initial watermark). -/
theorem C5_witness :
    lookupKey wC5.sm.sessions ("s1") = some sessA ∧
    (((runChunks wC5 msgsC5).2 = [none, none, none, none, none] ∧
      sessionChunkCount (runChunks wC5 msgsC5).1 ("s1") = 4 ∧
      streamQueuedCount (runChunks wC5 msgsC5).1 ("s1") = 4 ∧
      sessionWatermark (runChunks wC5 msgsC5).1 ("s1") = 3) ∧
    handle_audio_chunk wC5 (chunkEvent ("s1") (-1) [7]) = (wC5, none) ∧
    (∃ s2, lookupKey (handle_audio_chunk wC5 AudioChunkInput.otherPayload).1.sm.sessions
        ("s1") = some s2 ∧ sessA.last_chunk_id ≤ s2.last_chunk_id)) :=
  ⟨by decide,
    C5_monotonic_watermark wC5 ("s1") sessA (-1) [7] AudioChunkInput.otherPayload
      (by decide) (by decide) (by decide) (by decide)⟩

/-- C6: the buffer cap is `max_duration_seconds * sample_rate * 2` bytes; a
sequence of appends whose sizes sum to exactly the cap all succeed (ending
with `total_bytes` equal to the cap), and any single append that would push
`total_bytes` past the cap fails with `overflow`, returning the buffer with
its chunks and byte count exactly as they were. -/
theorem C6_overflow_boundary (r d : Nat) (cs : List Bytes) (b : AudioBuffer) (c : Bytes)
    (hsum : sumBytes cs = calculate_max_size d r)
    (hover : b.max_size_bytes < b.total_bytes + c.length) :
    (AudioBuffer.init r d).max_size_bytes = d * r * 2 ∧
    ((AudioBuffer.init r d).appendAll cs).2 = none ∧
    ((AudioBuffer.init r d).appendAll cs).1.total_bytes = sumBytes cs ∧
    b.append c = (b, some .overflow) := by
  have h := appendAll_within_cap cs (AudioBuffer.init r d)
    (by simp [AudioBuffer.init, hsum])
  refine ⟨rfl, h.1, ?_, by simp [AudioBuffer.append, hover]⟩
  have := h.2.1
  simpa [AudioBuffer.init] using this

/-- C6 witness: a 4-byte cap (1s at 2Hz, 16-bit mono) filled exactly by two
2-byte chunks; the next 1-byte append overflows and leaves the buffer
untouched. -/
theorem C6_witness :
    sumBytes [[1, 2], [3, 4]] = calculate_max_size 1 2 ∧
    ((AudioBuffer.init 2 1).appendAll [[1, 2], [3, 4]]).1.max_size_bytes <
      ((AudioBuffer.init 2 1).appendAll [[1, 2], [3, 4]]).1.total_bytes + [9].length ∧
    ((AudioBuffer.init 2 1).max_size_bytes = 1 * 2 * 2 ∧
      ((AudioBuffer.init 2 1).appendAll [[1, 2], [3, 4]]).2 = none ∧
      ((AudioBuffer.init 2 1).appendAll [[1, 2], [3, 4]]).1.total_bytes =
        sumBytes [[1, 2], [3, 4]] ∧
      ((AudioBuffer.init 2 1).appendAll [[1, 2], [3, 4]]).1.append [9] =
        (((AudioBuffer.init 2 1).appendAll [[1, 2], [3, 4]]).1, some .overflow)) :=
  ⟨by decide, by decide,
    C6_overflow_boundary 2 1 [[1, 2], [3, 4]]
      ((AudioBuffer.init 2 1).appendAll [[1, 2], [3, 4]]).1 [9] (by decide) (by decide)⟩

/-- C7 (counterexample): the claim says delivering a final result twice with
the same `segment_id` causes exactly one persisted append of that segment's
text.  A final result whose text strips to empty is never persisted (the
`if text:` guard), so two deliveries of such a result yield zero appends, not
exactly one. -/
theorem C7_counterexample :
    transcriptAppendCount
      (deliverResults wC7 ("s1")
        [{ is_partial := false, text := "", segment_id := ("seg1") },
          { is_partial := false, text := "", segment_id := ("seg1") }]) ("s1") = 0 := by
  decide

theorem result_callback_already_persisted (w : World) (sess_id : String) (s : Session)
    (rd : ResultData) (hs : lookupKey w.sm.sessions sess_id = some s)
    (hfin : ResultData.is_partial rd = false) (ht : ¬ (pyStrip rd.text = ""))
    (hmem : memStr rd.segment_id s.persisted_final_segments = true) :
    result_callback w sess_id rd = (w, .toRoom s.request_sid) := by
  simp [result_callback, hs, hfin, ht, hmem]

/-- C7 (amended): for a session in the registry, delivering a final
(`is_partial = false`) result twice with the same `segment_id` — provided its
stripped text is non-empty — causes exactly one persisted append of that text:
the per-session set of already-persisted ids blocks the second delivery.
Partial results are never persisted, for any state and any payload. -/
theorem C7_segment_persisted_once (w : World) (sess_id : String) (s : Session)
    (rd : ResultData)
    (hs : lookupKey w.sm.sessions sess_id = some s)
    (hfin : ResultData.is_partial rd = false)
    (ht : ¬ (pyStrip rd.text = ""))
    (hfreshSeg : memStr rd.segment_id s.persisted_final_segments = false)
    (hraise : w.raiseInCallback = false)
    (hdb : w.dbAppendOk = true) :
    transcriptAppendCount (deliverResults w sess_id [rd, rd]) sess_id =
      transcriptAppendCount w sess_id + 1 ∧
    (∀ (w2 : World) (sid2 : String) (rd2 : ResultData),
      ResultData.is_partial rd2 = true →
        (result_callback w2 sid2 rd2).1.transcripts = w2.transcripts) := by
  have h1 : (result_callback w sess_id rd).1 =
      ({ w with transcripts := w.transcripts ++ [(sess_id, pyStrip rd.text)] } : World).setSession
        sess_id
        { s with persisted_final_segments := s.persisted_final_segments ++ [rd.segment_id] } := by
    simp [result_callback, hs, hfin, ht, hfreshSeg, hraise, hdb]
  have hl1 : lookupKey (result_callback w sess_id rd).1.sm.sessions sess_id =
      some { s with persisted_final_segments := s.persisted_final_segments ++ [rd.segment_id] } := by
    rw [h1]
    simp [World.setSession, lookupKey_updateKey, hs]
  have hmem : memStr rd.segment_id (s.persisted_final_segments ++ [rd.segment_id]) = true :=
    memStr_append_self _ _
  have h2 : (result_callback (result_callback w sess_id rd).1 sess_id rd).1 =
      (result_callback w sess_id rd).1 := by
    rw [result_callback_already_persisted (result_callback w sess_id rd).1 sess_id
      { s with persisted_final_segments := s.persisted_final_segments ++ [rd.segment_id] }
      rd hl1 hfin ht hmem]
  constructor
  · have hfold : deliverResults w sess_id [rd, rd] =
        (result_callback (result_callback w sess_id rd).1 sess_id rd).1 := by
      simp [deliverResults]
    rw [hfold, h2, h1]
    simp [World.setSession, transcriptAppendCount, List.filter_append]
  · intro w2 sid2 rd2 hp
    cases hl : lookupKey w2.sm.sessions sid2 with
    | none => simp [result_callback, hl]
    | some s2 => simp [result_callback, hl, hp]

/-- C7 witness: the amended theorem applied at the concrete state `wC7` for a
final result with non-empty text delivered twice. -/
theorem C7_witness :
    lookupKey wC7.sm.sessions ("s1") = some sessA ∧
    (transcriptAppendCount
        (deliverResults wC7 ("s1")
          [{ is_partial := false, text := ("hello"), segment_id := ("seg1") },
            { is_partial := false, text := ("hello"), segment_id := ("seg1") }]) ("s1") =
      transcriptAppendCount wC7 ("s1") + 1 ∧
    (∀ (w2 : World) (sid2 : String) (rd2 : ResultData),
      ResultData.is_partial rd2 = true →
        (result_callback w2 sid2 rd2).1.transcripts = w2.transcripts)) :=
  ⟨by decide,
    C7_segment_persisted_once wC7 ("s1") sessA
      { is_partial := false, text := ("hello"), segment_id := ("seg1") }
      (by decide) (by decide) (by decide) (by decide) (by decide) (by decide)⟩

/-- C8 (counterexample): the claim says a second `finalize` after a successful
first one must panic/fatal rather than silently re-encode.  On the non-empty
buffer `bufTwo` (one 2-byte chunk, so the encoder's frame-size check passes
and the first finalize genuinely succeeds) the source keeps no finalized flag
and does not consume the chunks, so the second call — made after the first
one succeeded — succeeds again with the same bytes instead of raising. -/
theorem C8_counterexample :
    AudioBuffer.finalize_to_mp3_full bufTwo = Except.ok [7, 8] ∧
    (match AudioBuffer.finalize_to_mp3_full bufTwo with
      | .ok _ => AudioBuffer.finalize_to_mp3_full bufTwo
      | .error e => Except.error e) = Except.ok [7, 8] :=
  ⟨rfl, rfl⟩

/-- C8 (amended): `finalize_to_mp3` has no once-only guard and its outcome is
a pure function of the buffered data: a non-empty buffer either encodes the
joined chunks or fails with the re-raised conversion error (the encoder
rejects raw 16-bit data of odd byte length); when the data passes the
frame-size check — the condition under which a first call succeeds at all —
no call can fail, so a finalize repeated after a successful one silently
re-encodes the same audio instead of panicking; an empty buffer always fails
with `emptyBuffer`. -/
theorem C8_finalize_unguarded (b : AudioBuffer) (hne : ¬ (b.chunks = [])) :
    (AudioBuffer.finalize_to_mp3_full b = Except.ok (concatBytes b.chunks) ∨
      AudioBuffer.finalize_to_mp3_full b = Except.error .conversionFailed) ∧
    ((concatBytes b.chunks).length % 2 = 0 →
      AudioBuffer.finalize_to_mp3_full b = Except.ok (concatBytes b.chunks) ∧
      (∀ e : BufferError, ¬ (AudioBuffer.finalize_to_mp3_full b = Except.error e))) ∧
    (∀ b2 : AudioBuffer, b2.chunks = [] →
      AudioBuffer.finalize_to_mp3_full b2 = Except.error .emptyBuffer) := by
  refine ⟨?_, ?_, ?_⟩
  · by_cases hlen : (concatBytes b.chunks).length % 2 = 0
    · exact Or.inl (by simp [AudioBuffer.finalize_to_mp3_full, hne, hlen])
    · exact Or.inr (by simp [AudioBuffer.finalize_to_mp3_full, hne, hlen])
  · intro hlen
    constructor
    · simp [AudioBuffer.finalize_to_mp3_full, hne, hlen]
    · intro e
      simp [AudioBuffer.finalize_to_mp3_full, hne, hlen]
  · intro b2 h2
    simp [AudioBuffer.finalize_to_mp3_full, h2]

/-- C8 witness: the amended theorem applied to the non-empty, even-length
buffer `bufTwo`, where the frame-size antecedent holds concretely. -/
theorem C8_witness :
    ¬ (bufTwo.chunks = []) ∧
    ((AudioBuffer.finalize_to_mp3_full bufTwo = Except.ok (concatBytes bufTwo.chunks) ∨
      AudioBuffer.finalize_to_mp3_full bufTwo = Except.error .conversionFailed) ∧
    ((concatBytes bufTwo.chunks).length % 2 = 0 →
      AudioBuffer.finalize_to_mp3_full bufTwo = Except.ok (concatBytes bufTwo.chunks) ∧
      (∀ e : BufferError, ¬ (AudioBuffer.finalize_to_mp3_full bufTwo = Except.error e))) ∧
    (∀ b2 : AudioBuffer, b2.chunks = [] →
      AudioBuffer.finalize_to_mp3_full b2 = Except.error .emptyBuffer)) :=
  ⟨by decide, C8_finalize_unguarded bufTwo (by decide)⟩

/-- C9: whenever `result_callback` cannot resolve a target room — the session
is absent from the registry, or an exception escapes inside the guarded block
(modelled by the `raiseInCallback` oracle firing at the persistence step) —
the transcription result is still emitted, without a room (broadcast to every
connected client), rather than dropped. -/
theorem C9_unroutable_results_broadcast (w : World) (sess_id : String) (rd : ResultData)
    (s : Session)
    (hcase : lookupKey w.sm.sessions sess_id = none ∨
      (lookupKey w.sm.sessions sess_id = some s ∧ ResultData.is_partial rd = false ∧
        ¬ (pyStrip rd.text = "") ∧ memStr rd.segment_id s.persisted_final_segments = false ∧
        w.raiseInCallback = true)) :
    (result_callback w sess_id rd).2 = Emission.broadcast := by
  rcases hcase with h | ⟨hs, hfin, ht, hfresh, hraise⟩
  · simp [result_callback, h]
  · simp [result_callback, hs, hfin, ht, hfresh, hraise]

/-- C9 witness: the theorem applied at `wRaise` (exception during the
persistence of a fresh final segment). -/
theorem C9_witness :
    (lookupKey wRaise.sm.sessions ("s1") = none ∨
      (lookupKey wRaise.sm.sessions ("s1") = some sessA ∧
        ResultData.is_partial
          { is_partial := false, text := ("hello"), segment_id := ("seg1") } = false ∧
        ¬ (pyStrip ("hello") = "") ∧
        memStr ("seg1") sessA.persisted_final_segments = false ∧
        wRaise.raiseInCallback = true)) ∧
    (result_callback wRaise ("s1")
        { is_partial := false, text := ("hello"), segment_id := ("seg1") }).2 =
      Emission.broadcast :=
  ⟨Or.inr (by decide),
    C9_unroutable_results_broadcast wRaise ("s1")
      { is_partial := false, text := ("hello"), segment_id := ("seg1") } sessA
      (Or.inr (by decide))⟩

/-- C10: for an `audio_chunk` event with a valid integer `chunk_id` above the
current watermark, the session's watermark is advanced to that `chunk_id`
before the buffer append and bridge forward are attempted — so whatever those
steps do (overflow, stream error, or success), the post-state watermark equals
the new `chunk_id`, and an immediate client retransmission of the same
`chunk_id` is silently dropped as a duplicate (state unchanged, nothing
emitted). -/
theorem C10_watermark_advances_before_forward (w : World) (sid : String) (s : Session)
    (n : Int) (bytes : Bytes)
    (hs : lookupKey w.sm.sessions sid = some s) (hsid : ¬ (sid = ""))
    (hb : ¬ (bytes = [])) (hn : s.last_chunk_id < n) :
    (∃ s2, lookupKey (handle_audio_chunk w (chunkEvent sid n bytes)).1.sm.sessions sid =
        some s2 ∧ s2.last_chunk_id = n) ∧
    handle_audio_chunk (handle_audio_chunk w (chunkEvent sid n bytes)).1
        (chunkEvent sid n bytes) =
      ((handle_audio_chunk w (chunkEvent sid n bytes)).1, none) := by
  have hfr2 : handle_audio_chunk w (chunkEvent sid n bytes) =
      forwardChunk (World.setSession w sid { s with last_chunk_id := n }) sid
        { s with last_chunk_id := n } bytes :=
    handle_audio_chunk_fresh w sid s n bytes hs hsid hb hn
  have hw1 : lookupKey (World.setSession w sid { s with last_chunk_id := n }).sm.sessions sid =
      some { s with last_chunk_id := n } := by
    simp [World.setSession, lookupKey_updateKey, hs]
  obtain ⟨v2, hv2, hlast⟩ :=
    lookupKey_forwardChunk_self (World.setSession w sid { s with last_chunk_id := n }) sid
      { s with last_chunk_id := n } bytes hw1
  have hlast2 : v2.last_chunk_id = n := by simpa using hlast
  have hv2w : lookupKey (handle_audio_chunk w (chunkEvent sid n bytes)).1.sm.sessions sid =
      some v2 := by
    rw [hfr2]
    exact hv2
  refine ⟨⟨v2, hv2w, hlast2⟩, ?_⟩
  exact handle_audio_chunk_drop (handle_audio_chunk w (chunkEvent sid n bytes)).1 sid v2 n
    bytes hv2w hsid hb (le_of_eq hlast2.symm)

/-- C10 witness: the theorem applied at the concrete state `wC5` with a fresh
`chunk_id` of 5. -/
theorem C10_witness :
    lookupKey wC5.sm.sessions ("s1") = some sessA ∧
    ((∃ s2, lookupKey (handle_audio_chunk wC5 (chunkEvent ("s1") 5 [7])).1.sm.sessions
        ("s1") = some s2 ∧ s2.last_chunk_id = 5) ∧
    handle_audio_chunk (handle_audio_chunk wC5 (chunkEvent ("s1") 5 [7])).1
        (chunkEvent ("s1") 5 [7]) =
      ((handle_audio_chunk wC5 (chunkEvent ("s1") 5 [7])).1, none)) :=
  ⟨by decide,
    C10_watermark_advances_before_forward wC5 ("s1") sessA 5 [7] (by decide) (by decide)
      (by decide) (by decide)⟩
